import Mathlib

/-!
Verification of the CQL (Corpus Query Language) engine.

This development shallowly embeds the query execution engine of the
repository (`engine/engine.py`, `utils/utils.py`, `core/core.py`) in Lean.
Python exceptions are modelled with `Except PyErr`, the `while` loop of
`parse_corpus` is modelled as a fuel-indexed iteration of a step function
(`none` marks fuel exhaustion; a separate theorem shows enough fuel always
exists), and the host regex facility (Python `re`, used through
`re.compile(rf"^pat$")`, i.e. always fully anchored) is modelled by
Brzozowski derivatives on the fragment that the queries of the
specification use: literal characters, `.` and postfix `*`.  Other regex
metacharacters are modelled as failing to compile, as is a `*` with
nothing to repeat or a double `*`, mirroring `re.error` cases.
-/

/-- Python exceptions raised by the engine: `KeyError` (missing
annotation), `ValueError` (invalid regex / malformed query / bad mode) and
`IndexError` (out-of-range list access, unreachable in practice). -/
inductive PyErr where
  | keyError
  | valueError
  | indexError
deriving DecidableEq, Repr

/-- A corpus token: the Python `dict[str, str]` of annotations, modelled
as an association list with lookup by key. -/
def Token : Type := List (String × String)

instance : DecidableEq Token := by
  unfold Token
  infer_instance

/-- Regular expressions of the modelled fragment of the host regex
facility. -/
inductive RE where
  | emp
  | eps
  | chr (c : Char)
  | dot
  | alt (a b : RE)
  | cat (a b : RE)
  | star (a : RE)
deriving DecidableEq, Repr

/-- Whether a regex accepts the empty string. -/
def RE.nullable : RE → Bool
  | .emp => false
  | .eps => true
  | .chr _ => false
  | .dot => false
  | .alt a b => a.nullable || b.nullable
  | .cat a b => a.nullable && b.nullable
  | .star _ => true

/-- Brzozowski derivative of a regex with respect to one character.
Python `.` matches every character except a newline. -/
def RE.deriv : RE → Char → RE
  | .emp, _ => .emp
  | .eps, _ => .emp
  | .chr c, d => if c = d then .eps else .emp
  | .dot, d => if d = '\n' then .emp else .eps
  | .alt a b, d => .alt (a.deriv d) (b.deriv d)
  | .cat a b, d =>
      if a.nullable then .alt (.cat (a.deriv d) b) (b.deriv d)
      else .cat (a.deriv d) b
  | .star a, d => .cat (a.deriv d) (.star a)

/-- Full (both-ends anchored) match of a regex against a string, the
semantics of `re.match(re.compile(rf"^pat$"), value)`. -/
def reFullMatch (r : RE) (s : List Char) : Bool :=
  (s.foldl RE.deriv r).nullable

/-- Regex metacharacters outside the modelled fragment; a pattern using
one is modelled as failing to compile. -/
def reMetachars : List Char := ['(', ')', '[', ']', '{', '}', '+', '?', '|', '^', '$', '\\']

/-- Compile the characters of a pattern into a stack of atoms (reversed);
`*` applies to the previous atom.  A leading `*` or a double `*` fails,
as `re.compile` fails with "nothing to repeat" / "multiple repeat". -/
def compileAtoms : List Char → List RE → Option (List RE)
  | [], acc => some acc.reverse
  | c :: rest, acc =>
    if c = '.' then compileAtoms rest (.dot :: acc)
    else if c = '*' then
      match acc with
      | [] => none
      | .star _ :: _ => none
      | a :: acc' => compileAtoms rest (.star a :: acc')
    else if c ∈ reMetachars then none
    else compileAtoms rest (.chr c :: acc)

/-- Model of `re.compile(rf"^pat$")`: `none` models `re.error` (raised as
`ValueError` by `simple_match`). -/
def compileRegex (pat : String) : Option RE :=
  (compileAtoms pat.data []).map (fun atoms => atoms.foldr RE.cat .eps)

/-- Annotation types supported by the engine (engine.py). -/
def ANNOTATION_TYPES : List String := ["lemma", "pos", "morph", "word"]

/-- Embedding of `utils.simple_match` on a query triple
`(annotation, operator, regexp)`.  The triple arity check of the source
always passes here because the triple shape is enforced by the type.
Faithful to the source order: annotation lookup (KeyError), regex
compilation (ValueError), anchored match, then the equality operator
(ValueError if neither `=` nor `!=`). -/
def simple_match ( annotation equality regexp : String) (text_token : Token) : Except PyErr Bool :=
  match List.lookup annotation text_token with
  | none => .error .keyError
  | some value =>
    match compileRegex regexp with
    | none => .error .valueError
    | some r =>
      let found := reFullMatch r value.data
      if equality = "=" then .ok found
      else if equality = "!=" then .ok (!found)
      else .error .valueError

/-- One alternative inside an `or` (or the inner element of `?`): the
parser produces either a plain triple or an `("and", triples...)` tuple;
`other` stands for any other Python value, which `alternative_match`
skips with a warning. -/
inductive Alt where
  | simple3 ( annotation equality regexp : String)
  | andA (items : List (String × String × String))
  | other
deriving DecidableEq, Repr

/-- Embedding of `utils.alternative_match`.  An `and` alternative
evaluates all of its items (the Python list comprehension is not wrapped
in try/except, so its KeyError/ValueError propagates); a simple
alternative is wrapped in `except (KeyError, ValueError)` and a caught
error just moves on to the next alternative. -/
def alternative_match (queries : List Alt) (text_token : Token) : Except PyErr Bool :=
  match queries with
  | [] => .ok false
  | .andA items :: rest =>
    match items.mapM (fun it => simple_match it.1 it.2.1 it.2.2 text_token) with
    | .error e => .error e
    | .ok all_matches =>
      if all_matches.all (fun b => b) then .ok true
      else alternative_match rest text_token
  | .simple3 a o p :: rest =>
    match simple_match a o p text_token with
    | .ok true => .ok true
    | .ok false => alternative_match rest text_token
    | .error .keyError => alternative_match rest text_token
    | .error .valueError => alternative_match rest text_token
    | .error e => .error e
  | .other :: rest => alternative_match rest text_token

/-- One element of the AST list produced by the parser
(`parser.py`: a plain triple, `("and", ...)`, `("or", ...)`,
`("distance", (min, max))` or `("?", inner)`).  Unrecognized operator
tags are representable as a `simple` whose annotation is not in
`ANNOTATION_TYPES`; the engine sends those to its unknown-operator
branch. -/
inductive QueryElem where
  | simple ( annotation equality regexp : String)
  | andE (items : List (String × String × String))
  | orE (alts : List Alt)
  | distance (lo hi : Nat)
  | opt (inner : Alt)
deriving DecidableEq, Repr

/-- Embedding of `utils.simple_match` applied to an arbitrary AST
element, as the distance branch of the engine does with `ast[tree_i+1]`.
A Python tuple of length other than 3 fails the arity check
(ValueError).  An `("and", x, y)` or `("or", x, y)` tuple has length 3,
so the source looks the literal key `"and"` / `"or"` up in the token
(KeyError when absent); when present, the third component is a tuple, so
either its interpolation into `rf"^pat$"` fails to compile (ValueError)
or the equality operator — a tuple, never `"="` or `"!="` — fails the
operator check (ValueError). -/
def simple_match_any (q : QueryElem) (text_token : Token) : Except PyErr Bool :=
  match q with
  | .simple a o p => simple_match a o p text_token
  | .andE items =>
    if items.length = 2 then
      match List.lookup "and" text_token with
      | none => .error .keyError
      | some _ => .error .valueError
    else .error .valueError
  | .orE alts =>
    if alts.length = 2 then
      match List.lookup "or" text_token with
      | none => .error .keyError
      | some _ => .error .valueError
    else .error .valueError
  | .distance _ _ => .error .valueError
  | .opt _ => .error .valueError

/-- The mutable state of the scanning loop of `engine.parse_corpus`:
`textIndex`, `treeIndex`, `current_initial_state` (the anchor),
`first_matching_index` and `all_spans`.  A recorded span start is
`Option Nat` because the source appends `first_matching_index`
unchecked, which can be `None`. -/
structure ScanState where
  textIndex : Nat
  treeIndex : Nat
  anchor : Nat
  firstMatch : Option Nat
  spans : List (Option Nat × Nat)
deriving DecidableEq, Repr

/-- Result of `parse_corpus`: a boolean in match mode, a span list in
find mode. -/
inductive PResult where
  | bool (b : Bool)
  | spans (l : List (Option Nat × Nat))
deriving DecidableEq, Repr

deriving instance DecidableEq for Except

/-- Outcome of one iteration of the scanning loop: leave the loop with a
result (or raise), or continue with a new state. -/
inductive Step where
  | final (r : Except PyErr PResult)
  | cont (s : ScanState)
deriving DecidableEq, Repr

/-- Value returned when the loop is left normally:
`len(all_spans) > 0` in match mode, `all_spans` in find mode. -/
def exitResult (mode : String) (spans : List (Option Nat × Nat)) : Except PyErr PResult :=
  if mode = "match" then .ok (.bool (decide (0 < spans.length)))
  else .ok (.spans spans)

/-- The reset performed on a predicate miss: `tree_index = 0;
current_initial_state += 1; text_index = current_initial_state;
first_matching_index = None`. -/
def resetState (s : ScanState) : ScanState :=
  { s with treeIndex := 0, anchor := s.anchor + 1, textIndex := s.anchor + 1,
           firstMatch := none }

/-- The advance performed on a predicate hit: record the start if unset,
then `tree_index += 1; text_index += 1`. -/
def advanceState (s : ScanState) : ScanState :=
  { s with firstMatch := some (s.firstMatch.getD s.textIndex),
           treeIndex := s.treeIndex + 1, textIndex := s.textIndex + 1 }

/-- The `for i in range(min_distance, max_distance)` loop of the distance
branch, with `iters = max - min` iterations: stop early at the corpus
end, match `ast[tree_index + 1]` (when it exists) against the current
token, and on success report the new `text_index`; `ok none` means no
submatch. -/
def distanceScan (ast : List QueryElem) (corpus : List Token) (treeIndex : Nat) :
    Nat → Nat → Except PyErr (Option Nat)
  | 0, _ => .ok none
  | iters + 1, text =>
    if corpus.length ≤ text then .ok none
    else
      match ast[treeIndex + 1]? with
      | none => distanceScan ast corpus treeIndex iters (text + 1)
      | some next_query =>
        match corpus[text]? with
        | none => .error .indexError
        | some tok =>
          match simple_match_any next_query tok with
          | .error e => .error e
          | .ok true => .ok (some (text + 1))
          | .ok false => distanceScan ast corpus treeIndex iters (text + 1)

/-- Operator dispatch of the loop body (independent of the mode).
Branch by branch faithful to the source: the simple branch catches only
KeyError; the or branch catches nothing; the distance branch catches
nothing; the and branch and the optional branch catch KeyError and
ValueError. -/
def dispatchStep (ast : List QueryElem) (corpus : List Token) (s : ScanState)
    (q : QueryElem) (tok : Token) : Step :=
  match q with
  | .simple attr op pat =>
    if attr ∈ ANNOTATION_TYPES then
      match simple_match attr op pat tok with
      | .ok true => .cont (advanceState s)
      | .ok false => .cont (resetState s)
      | .error .keyError => .cont (resetState s)
      | .error e => .final (.error e)
    else
      .cont { s with treeIndex := s.treeIndex + 1 }
  | .orE alts =>
    match alternative_match alts tok with
    | .ok true => .cont (advanceState s)
    | .ok false => .cont (resetState s)
    | .error e => .final (.error e)
  | .distance lo hi =>
    match distanceScan ast corpus s.treeIndex (hi - lo) s.textIndex with
    | .ok (some t) => .cont { s with treeIndex := s.treeIndex + 2, textIndex := t }
    | .ok none => .cont (resetState s)
    | .error e => .final (.error e)
  | .andE items =>
    match items.mapM (fun it => simple_match it.1 it.2.1 it.2.2 tok) with
    | .ok all_matches =>
      if all_matches.all (fun b => b) then .cont (advanceState s)
      else .cont (resetState s)
    | .error .keyError => .cont (resetState s)
    | .error .valueError => .cont (resetState s)
    | .error e => .final (.error e)
  | .opt inner =>
    match alternative_match [inner] tok with
    | .ok true => .cont (advanceState s)
    | .ok false => .cont { s with treeIndex := s.treeIndex + 1 }
    | .error .keyError => .cont { s with treeIndex := s.treeIndex + 1 }
    | .error .valueError => .cont { s with treeIndex := s.treeIndex + 1 }
    | .error e => .final (.error e)

/-- One iteration of `while text_index < corpus_length or tree_index ==
ast_length`.  The completion branch appends `(first_matching_index,
text_index)` unconditionally and either returns `True` (match mode) or
advances `text_index` by one and the anchor by one (find mode). -/
def scanStep (mode : String) (ast : List QueryElem) (corpus : List Token)
    (s : ScanState) : Step :=
  if ¬ (s.textIndex < corpus.length ∨ s.treeIndex = ast.length) then
    .final (exitResult mode s.spans)
  else if s.treeIndex = ast.length then
    if mode = "match" then .final (.ok (.bool true))
    else
      .cont { s with spans := s.spans ++ [(s.firstMatch, s.textIndex)],
                     textIndex := s.textIndex + 1, treeIndex := 0,
                     firstMatch := none, anchor := s.anchor + 1 }
  else if corpus.length ≤ s.textIndex then
    .final (exitResult mode s.spans)
  else
    match corpus[s.textIndex]? with
    | none => .final (.error .indexError)
    | some tok =>
      match ast[s.treeIndex]? with
      | none => .final (.error .indexError)
      | some q => dispatchStep ast corpus s q tok

/-- Fuel-indexed iteration of `scanStep`; `none` is fuel exhaustion. -/
def scanLoop (mode : String) (ast : List QueryElem) (corpus : List Token) :
    Nat → ScanState → Option (Except PyErr PResult)
  | 0, _ => none
  | fuel + 1, s =>
    match scanStep mode ast corpus s with
    | .final r => some r
    | .cont s' => scanLoop mode ast corpus fuel s'

/-- The initial loop state: everything zero, no recorded start, no
spans. -/
def initScanState : ScanState :=
  { textIndex := 0, treeIndex := 0, anchor := 0, firstMatch := none, spans := [] }

/-- Embedding of `engine.parse_corpus`: mode validation, the
empty-corpus and empty-AST early returns, then the scanning loop. -/
def parse_corpus (ast : List QueryElem) (corpus : List Token) (mode : String)
    (fuel : Nat) : Option (Except PyErr PResult) :=
  if ¬ (mode = "match" ∨ mode = "find") then some (.error .valueError)
  else if corpus.isEmpty then
    some (if mode = "match" then .ok (.bool false) else .ok (.spans []))
  else if ast.isEmpty then
    some (if mode = "match" then .ok (.bool false) else .ok (.spans []))
  else scanLoop mode ast corpus fuel initScanState

/-- The blank-query test of `core.py`:
`not query or not query.strip()`, i.e. the query is empty or consists of
whitespace only. -/
def isBlankQuery (query : String) : Bool :=
  query.data.all (fun c => c.isWhitespace)

/-- Embedding of `CQLEngine.findall`, parameterized by the grammar
builder (`utils.build_grammar` runs the Lark parser on a grammar file
that is outside the scanned sources): empty-query check, the
empty-corpus early return before any parsing, then AST construction and
`parse_corpus` in find mode; all exceptions propagate. -/
def CQLEngine_findall (build_grammar : String → Except PyErr (List QueryElem))
    (corpus : List Token) (query : String) (fuel : Nat) :
    Option (Except PyErr PResult) :=
  if isBlankQuery query then some (.error .valueError)
  else if corpus.isEmpty then some (.ok (.spans []))
  else
    match build_grammar query with
    | .error e => some (.error e)
    | .ok ast => parse_corpus ast corpus "find" fuel

/-- Embedding of `CQLEngine.match`, mirroring `CQLEngine.findall` with
mode "match" and `False` on an empty corpus. -/
def CQLEngine_match (build_grammar : String → Except PyErr (List QueryElem))
    (corpus : List Token) (query : String) (fuel : Nat) :
    Option (Except PyErr PResult) :=
  if isBlankQuery query then some (.error .valueError)
  else if corpus.isEmpty then some (.ok (.bool false))
  else
    match build_grammar query with
    | .error e => some (.error e)
    | .ok ast => parse_corpus ast corpus "match" fuel

/-! ## Claim C1: span validity -/

/-- C1 (code evaluated at the failing input): on the one-token corpus
`[{lemma: "y"}]` the well-formed query `[lemma='x']?` — an AST of a
single Optional element whose inner predicate matches nothing — makes
`parse_corpus` in find mode emit the span `(None, 0)`, whose start is an
unset (None) corpus index; the claimed invariant `0 ≤ s < e ≤ |corpus|`
fails because the emission branch appends `first_matching_index`
without the `start is not None` guard. -/
theorem c1_none_span_emitted :
    parse_corpus [.opt (.simple3 "lemma" "=" "x")] [[("lemma", "y")]] "find" 10 =
      some (.ok (.spans [(none, 0)])) := by
  decide

/-! ## Claim C2: non-matching single Optional -/

/-- C2 (code evaluated at the failing input): on the two-token corpus
`[{lemma: "y"}, {lemma: "z"}]` and the single-Optional query
`[lemma='x']?` whose inner predicate matches no token, findall returns
the non-empty list `[(None, 0), (None, 1)]` and match returns `True`,
while the claim (and the spec) say findall returns `[]` and match
returns false: the source has no suppression of emission when `start`
is `None`. -/
theorem c2_optional_not_suppressed :
    parse_corpus [.opt (.simple3 "lemma" "=" "x")] [[("lemma", "y")], [("lemma", "z")]]
        "find" 20 = some (.ok (.spans [(none, 0), (none, 1)])) ∧
    parse_corpus [.opt (.simple3 "lemma" "=" "x")] [[("lemma", "y")], [("lemma", "z")]]
        "match" 20 = some (.ok (.bool true)) := by
  constructor
  · decide
  · decide

/-! ## Claim C3: distance semantics -/

/-- C3 (code evaluated at the failing input): for the query
`[lemma='a'][]{1,2}[lemma='b']` on the corpus `[{lemma:"a"},
{lemma:"b"}]`, the claimed semantics (advance by `min = 1`, then try
offsets `1` through `1`) finds no match — the only candidate position is
past the corpus end — yet the code returns the span `(0, 2)`: its
distance branch iterates `range(min, max)` but never advances
`text_index` by `min` first, so it tries offsets `0` through
`max - min - 1`. -/
theorem c3_distance_min_not_skipped :
    parse_corpus [.simple "lemma" "=" "a", .distance 1 2, .simple "lemma" "=" "b"]
        [[("lemma", "a")], [("lemma", "b")]] "find" 30 =
      some (.ok (.spans [(some 0, 2)])) := by
  decide

/-! ## Claim C4: resumption after an emitted span -/

/-- C4 counterexample: on a corpus of three NOUN tokens with the query
`[pos='NOUN']`, the scanner state immediately after emitting the span
`(0, 1)` has `text_index = 2`, not `s + 1 = 1`, and the full scan yields
`[(0,1), (2,3)]`: the matching token at index 1 is never examined as a
match start, contradicting the claimed resumption at `s + 1`. -/
theorem c4_resume_not_at_start_plus_one :
    scanStep "find" [.simple "pos" "=" "NOUN"]
        [[("pos", "NOUN")], [("pos", "NOUN")], [("pos", "NOUN")]]
        { textIndex := 1, treeIndex := 1, anchor := 0, firstMatch := some 0, spans := [] } =
      .cont { textIndex := 2, treeIndex := 0, anchor := 1, firstMatch := none,
              spans := [(some 0, 1)] } ∧
    parse_corpus [.simple "pos" "=" "NOUN"]
        [[("pos", "NOUN")], [("pos", "NOUN")], [("pos", "NOUN")]] "find" 30 =
      some (.ok (.spans [(some 0, 1), (some 2, 3)])) := by
  constructor
  · decide
  · decide

/-- C4 amended: in find mode, immediately after the completion branch
emits the span `(start, text_i)`, the scanner sets `text_i` to
`text_i + 1` (one past the span end, so the next attempt resumes at
`e + 1`, not at `s + 1`), increments the anchor by one from its previous
value, resets `tree_i` to 0 and `start` to None; the tokens from `s + 1`
to `e` are not re-examined as potential match starts. -/
theorem c4_emission_advances_past_end (ast : List QueryElem) (corpus : List Token)
    (s : ScanState) (h : s.treeIndex = ast.length) :
    scanStep "find" ast corpus s =
      .cont { s with spans := s.spans ++ [(s.firstMatch, s.textIndex)],
                     textIndex := s.textIndex + 1, treeIndex := 0,
                     firstMatch := none, anchor := s.anchor + 1 } := by
  simp [scanStep, h]

/-- Witness for C4: the amended emission step at a concrete state. -/
theorem c4_emission_advances_past_end_witness :
    ({ textIndex := 1, treeIndex := 1, anchor := 0, firstMatch := some 0,
       spans := [] } : ScanState).treeIndex = [QueryElem.simple "pos" "=" "NOUN"].length ∧
    scanStep "find" [QueryElem.simple "pos" "=" "NOUN"] [[("pos", "NOUN")]]
        { textIndex := 1, treeIndex := 1, anchor := 0, firstMatch := some 0, spans := [] } =
      .cont { textIndex := 2, treeIndex := 0, anchor := 1, firstMatch := none,
              spans := [(some 0, 1)] } :=
  ⟨by decide,
   c4_emission_advances_past_end [QueryElem.simple "pos" "=" "NOUN"] [[("pos", "NOUN")]]
     { textIndex := 1, treeIndex := 1, anchor := 0, firstMatch := some 0, spans := [] }
     (by decide)⟩

/-! ## Claim C6: anchored regex -/

/-- C6 counterexample: the Simple predicate `(lemma, Eq, 're.*')`
evaluates to true — not false, as claimed — on a token whose lemma is
`"reyes "`: the anchored pattern `^re.*$` still matches, because `.*`
matches `"yes "` (including the trailing space). -/
theorem c6_re_star_matches_reyes :
    simple_match "lemma" "=" "re.*" [("lemma", "reyes ")] = .ok true := by
  decide

/-- C6 amended: the per-token regex test is anchored at both ends:
`(lemma, Eq, 're')` is false on a token with lemma `"rey"`, and
`(lemma, Eq, 're.*')` is true on a token with lemma `"rey"`; however it
is also true (not false) on a token with lemma `"reyes "`, since the
anchored pattern `^re.*$` matches the whole value. -/
theorem c6_anchored_regex :
    simple_match "lemma" "=" "re" [("lemma", "rey")] = .ok false ∧
    simple_match "lemma" "=" "re.*" [("lemma", "rey")] = .ok true ∧
    simple_match "lemma" "=" "re.*" [("lemma", "reyes ")] = .ok true := by
  refine ⟨by decide, by decide, by decide⟩

/-! ## Claim C5: Or never raises MissingAnnotation -/

/-- C5 counterexample: an Or whose first alternative is an And that
references the absent attribute `pos` raises KeyError out of the
disjunction — the And alternative is not treated as false and the
remaining (matching) Simple alternative is never tried — because the
list comprehension of the And branch of `alternative_match` is not
wrapped in a try/except. -/
theorem c5_and_alternative_raises :
    alternative_match [.andA [("pos", "=", "N")], .simple3 "lemma" "=" "x"]
        [("lemma", "x")] = .error .keyError := by
  decide

/-- Helper: the triple form of `simple_match` only ever raises KeyError
or ValueError, never IndexError. -/
theorem simple_match_no_index_error (a o p : String) (tok : Token) :
    simple_match a o p tok ≠ .error .indexError := by
  unfold simple_match
  cases List.lookup a tok with
  | none => simp
  | some v =>
    cases compileRegex p with
    | none => simp
    | some r =>
      by_cases h1 : o = "="
      · simp [h1]
      · by_cases h2 : o = "!="
        · simp [h1, h2]
        · simp [h1, h2]

/-- C5 amended: a Simple alternative of an Or that raises
MissingAnnotation (or an invalid-regex ValueError) is swallowed and the
remaining alternatives are still tried, so when every alternative is a
Simple the disjunction never raises and yields true iff some alternative
evaluates to true; an And alternative that references an absent
attribute, however, raises KeyError through the disjunction (see the
counterexample). -/
theorem c5_or_all_simple_total (alts : List Alt) (tok : Token)
    (h : ∀ a ∈ alts, ∃ x y z, a = Alt.simple3 x y z) :
    ∃ b, alternative_match alts tok = .ok b ∧
      (b = true ↔ ∃ x y z, Alt.simple3 x y z ∈ alts ∧ simple_match x y z tok = .ok true) := by
  induction alts with
  | nil => exact ⟨false, rfl, by simp⟩
  | cons a rest ih =>
    obtain ⟨x, y, z, rfl⟩ := h a (by simp)
    obtain ⟨b, hb, hiff⟩ := ih (fun a ha => h a (by simp [ha]))
    have htrans : simple_match x y z tok ≠ .ok true →
        ((∃ x' y' z', Alt.simple3 x' y' z' ∈ Alt.simple3 x y z :: rest ∧
            simple_match x' y' z' tok = .ok true) ↔
          (∃ x' y' z', Alt.simple3 x' y' z' ∈ rest ∧
            simple_match x' y' z' tok = .ok true)) := by
      intro hne
      constructor
      · rintro ⟨x', y', z', hmem, hs⟩
        rcases List.mem_cons.mp hmem with heq | hmem'
        · injection heq with e1 e2 e3
          subst e1
          subst e2
          subst e3
          exact absurd hs hne
        · exact ⟨x', y', z', hmem', hs⟩
      · rintro ⟨x', y', z', hmem', hs⟩
        exact ⟨x', y', z', List.mem_cons_of_mem _ hmem', hs⟩
    cases hm : simple_match x y z tok with
    | ok v =>
      cases v with
      | true =>
        refine ⟨true, by simp [alternative_match, hm], ?_⟩
        exact ⟨fun _ => ⟨x, y, z, List.mem_cons_self _ _, hm⟩, fun _ => rfl⟩
      | false =>
        refine ⟨b, by simp [alternative_match, hm, hb], ?_⟩
        exact hiff.trans (htrans (by simp [hm])).symm
    | error e =>
      have hne := simple_match_no_index_error x y z tok
      cases e with
      | keyError =>
        refine ⟨b, by simp [alternative_match, hm, hb], ?_⟩
        exact hiff.trans (htrans (by simp [hm])).symm
      | valueError =>
        refine ⟨b, by simp [alternative_match, hm, hb], ?_⟩
        exact hiff.trans (htrans (by simp [hm])).symm
      | indexError => exact absurd hm hne

/-- Witness for C5: on an Or of two Simple alternatives — the first
referencing a missing attribute, the second matching — the disjunction
returns an ok result without raising. -/
theorem c5_or_all_simple_total_witness :
    (∀ a ∈ [Alt.simple3 "pos" "=" "N", Alt.simple3 "lemma" "=" "x"],
      ∃ x y z, a = Alt.simple3 x y z) ∧
    ∃ b, alternative_match [Alt.simple3 "pos" "=" "N", Alt.simple3 "lemma" "=" "x"]
        [("lemma", "x")] = .ok b ∧
      (b = true ↔ ∃ x y z, Alt.simple3 x y z ∈
          [Alt.simple3 "pos" "=" "N", Alt.simple3 "lemma" "=" "x"] ∧
        simple_match x y z [("lemma", "x")] = .ok true) := by
  constructor
  · intro a ha
    simp only [List.mem_cons, List.not_mem_nil, or_false] at ha
    rcases ha with rfl | rfl
    · exact ⟨_, _, _, rfl⟩
    · exact ⟨_, _, _, rfl⟩
  · apply c5_or_all_simple_total
    intro a ha
    simp only [List.mem_cons, List.not_mem_nil, or_false] at ha
    rcases ha with rfl | rfl
    · exact ⟨_, _, _, rfl⟩
    · exact ⟨_, _, _, rfl⟩

/-! ## Claim C7: invalid regex surfaces -/

/-- C7 counterexample: a query whose only element is an And containing
the invalid regex `'('` does not surface any error — findall returns the
empty span list — because the And branch of the engine catches
ValueError and treats it as a reset, contradicting the claim that the
first evaluation raises regardless of the containing element. -/
theorem c7_and_swallows_invalid_regex :
    parse_corpus [.andE [("lemma", "=", "(")]] [[("lemma", "a")]] "find" 10 =
      some (.ok (.spans [])) := by
  decide

/-- C7 amended: an invalid regex surfaces to the caller on its first
evaluation when the predicate occurs as a standalone Simple element (the
Simple branch catches only KeyError, so the ValueError propagates); when
the predicate occurs inside an And element, inside a Simple alternative
of an Or, or inside an Optional element, the ValueError is caught there
and treated as a miss or skip instead. -/
theorem c7_simple_invalid_regex_raises (attr op pat : String) (tok : Token)
    (rest : List Token) (fuel : Nat) (hattr : attr ∈ ANNOTATION_TYPES)
    (hkey : (List.lookup attr tok).isSome) (hbad : compileRegex pat = none) :
    parse_corpus [.simple attr op pat] (tok :: rest) "find" (fuel + 1) =
      some (.error .valueError) := by
  obtain ⟨v, hv⟩ := Option.isSome_iff_exists.mp hkey
  simp [parse_corpus, scanLoop, scanStep, dispatchStep, initScanState, hattr,
    simple_match, hv, hbad]

/-- Witness for C7: the standalone Simple `[lemma='(']` raises
ValueError on the first token of a concrete corpus. -/
theorem c7_simple_invalid_regex_raises_witness :
    ("lemma" ∈ ANNOTATION_TYPES ∧
      (List.lookup "lemma" ([("lemma", "a")] : Token)).isSome ∧
      compileRegex "(" = none) ∧
    parse_corpus [.simple "lemma" "=" "("] [[("lemma", "a")]] "find" 10 =
      some (.error .valueError) :=
  ⟨⟨by decide, by decide, by decide⟩,
   c7_simple_invalid_regex_raises "lemma" "=" "(" [("lemma", "a")] [] 9
     (by decide) (by decide) (by decide)⟩

/-! ## Claim C9: empty corpus -/

/-- C9: for every grammar builder and every non-blank query, findall on
the empty corpus returns the empty span list and match returns false,
and no error is raised: the empty-corpus early return of `core.py` fires
before the query is even parsed. -/
theorem c9_empty_corpus (build_grammar : String → Except PyErr (List QueryElem))
    (query : String) (fuel : Nat) (h : isBlankQuery query = false) :
    CQLEngine_findall build_grammar [] query fuel = some (.ok (.spans [])) ∧
    CQLEngine_match build_grammar [] query fuel = some (.ok (.bool false)) := by
  simp [CQLEngine_findall, CQLEngine_match, h, List.isEmpty]

/-- Witness for C9: a concrete non-blank query string (the one used by
the repository's own tests), with a concrete grammar builder. -/
theorem c9_empty_corpus_witness :
    isBlankQuery "[lemma='test']" = false ∧
    (CQLEngine_findall (fun _ => .ok [.simple "lemma" "=" "test"]) [] "[lemma='test']" 10 =
        some (.ok (.spans [])) ∧
      CQLEngine_match (fun _ => .ok [.simple "lemma" "=" "test"]) [] "[lemma='test']" 10 =
        some (.ok (.bool false))) :=
  ⟨by decide,
   c9_empty_corpus (fun _ => .ok [.simple "lemma" "=" "test"]) "[lemma='test']" 10 (by decide)⟩

/-! ## Claim C8: mode consistency -/

/-- Helper: the operator dispatch leaves the loop only by raising an
exception, never with a normal result. -/
theorem dispatchStep_final_error (ast : List QueryElem) (corpus : List Token)
    (s : ScanState) (q : QueryElem) (tok : Token) (r : Except PyErr PResult)
    (h : dispatchStep ast corpus s q tok = .final r) : ∃ e, r = .error e := by
  unfold dispatchStep at h
  repeat' split at h
  all_goals first
    | exact Step.noConfusion h
    | (injection h with h; exact ⟨_, h.symm⟩)

/-- Helper: the operator dispatch never modifies the accumulated span
list. -/
theorem dispatchStep_cont_spans (ast : List QueryElem) (corpus : List Token)
    (s : ScanState) (q : QueryElem) (tok : Token) (s' : ScanState)
    (h : dispatchStep ast corpus s q tok = .cont s') : s'.spans = s.spans := by
  unfold dispatchStep at h
  repeat' split at h
  all_goals first
    | exact Step.noConfusion h
    | (injection h with h; subst h; rfl)

/-- Helper: when the loop condition holds, the tree index is not at the
end and the text index is in range, one loop iteration is exactly the
operator dispatch on the current token and AST element. -/
theorem scanStep_eq_dispatch (mode : String) (ast : List QueryElem)
    (corpus : List Token) (s : ScanState) (h2 : ¬ s.treeIndex = ast.length)
    (h3 : s.textIndex < corpus.length) (tok : Token)
    (htok : corpus[s.textIndex]? = some tok) (q : QueryElem)
    (hq : ast[s.treeIndex]? = some q) :
    scanStep mode ast corpus s = dispatchStep ast corpus s q tok := by
  simp [scanStep, h2, h3, Nat.not_le.mpr h3, htok, hq]

/-- Helper: when the loop condition fails, the loop returns the
mode-dependent exit value. -/
theorem scanStep_exit (mode : String) (ast : List QueryElem) (corpus : List Token)
    (s : ScanState) (h1 : ¬ (s.textIndex < corpus.length ∨ s.treeIndex = ast.length)) :
    scanStep mode ast corpus s = .final (exitResult mode s.spans) := by
  simp only [scanStep]
  rw [if_pos h1]

/-- Helper: in match mode the completion branch returns true at once. -/
theorem scanStep_match_emit (ast : List QueryElem) (corpus : List Token)
    (s : ScanState) (h2 : s.treeIndex = ast.length) :
    scanStep "match" ast corpus s = .final (.ok (.bool true)) := by
  simp [scanStep, h2]

/-- Helper: the find-mode completion branch appends the pending span and
advances text index and anchor by one. -/
theorem scanStep_find_emit (ast : List QueryElem) (corpus : List Token)
    (s : ScanState) (h : s.treeIndex = ast.length) :
    scanStep "find" ast corpus s =
      .cont { s with spans := s.spans ++ [(s.firstMatch, s.textIndex)],
                     textIndex := s.textIndex + 1, treeIndex := 0,
                     firstMatch := none, anchor := s.anchor + 1 } := by
  simp [scanStep, h]

/-- Helper: a successful find-mode run only ever appends to the span
accumulator of its starting state. -/
theorem scanLoop_find_spans_extend (ast : List QueryElem) (corpus : List Token) :
    ∀ fuel s ls, scanLoop "find" ast corpus fuel s = some (.ok (.spans ls)) →
      ∃ t, ls = s.spans ++ t := by
  intro fuel
  induction fuel with
  | zero => intro s ls h; simp [scanLoop] at h
  | succ fuel ih =>
    intro s ls h
    unfold scanLoop at h
    by_cases h1 : (s.textIndex < corpus.length ∨ s.treeIndex = ast.length)
    · by_cases h2 : s.treeIndex = ast.length
      · rw [scanStep_find_emit ast corpus s h2] at h
        obtain ⟨t, ht⟩ := ih _ _ h
        exact ⟨(s.firstMatch, s.textIndex) :: t, by simpa using ht⟩
      · have h3 : s.textIndex < corpus.length := h1.resolve_right h2
        cases htok : corpus[s.textIndex]? with
        | none =>
          simp [scanStep, h2, h3, Nat.not_le.mpr h3, htok] at h
        | some tok =>
          cases hq : ast[s.treeIndex]? with
          | none =>
            simp [scanStep, h2, h3, Nat.not_le.mpr h3, htok, hq] at h
          | some q =>
            rw [scanStep_eq_dispatch "find" ast corpus s h2 h3 tok htok q hq] at h
            cases hd : dispatchStep ast corpus s q tok with
            | final r =>
              rw [hd] at h
              obtain ⟨e, rfl⟩ := dispatchStep_final_error ast corpus s q tok r hd
              simp at h
            | cont s' =>
              rw [hd] at h
              obtain ⟨t, ht⟩ := ih _ _ h
              exact ⟨t, by rw [ht, dispatchStep_cont_spans ast corpus s q tok s' hd]⟩
    · rw [scanStep_exit "find" ast corpus s h1] at h
      simp [exitResult] at h
      exact ⟨[], by simp [h]⟩

/-- Helper: whenever the find-mode loop completes normally with spans
`ls` from state `s`, the match-mode loop from the same state and fuel
completes normally with `true` iff the find run emitted a span beyond
those already in `s` or `s` already held one. -/
theorem scanLoop_find_match (ast : List QueryElem) (corpus : List Token) :
    ∀ fuel s ls, scanLoop "find" ast corpus fuel s = some (.ok (.spans ls)) →
      scanLoop "match" ast corpus fuel s =
        some (.ok (.bool (decide (s.spans.length < ls.length) ||
          decide (0 < s.spans.length)))) := by
  intro fuel
  induction fuel with
  | zero => intro s ls h; simp [scanLoop] at h
  | succ fuel ih =>
    intro s ls h
    unfold scanLoop at h ⊢
    by_cases h1 : (s.textIndex < corpus.length ∨ s.treeIndex = ast.length)
    · by_cases h2 : s.treeIndex = ast.length
      · rw [scanStep_match_emit ast corpus s h2]
        rw [scanStep_find_emit ast corpus s h2] at h
        obtain ⟨t, ht⟩ := scanLoop_find_spans_extend ast corpus fuel _ ls h
        simp only [] at ht
        have : s.spans.length < ls.length := by
          rw [ht]
          simp
        simp [this]
      · have h3 : s.textIndex < corpus.length := h1.resolve_right h2
        cases htok : corpus[s.textIndex]? with
        | none =>
          simp [scanStep, h2, h3, Nat.not_le.mpr h3, htok] at h
        | some tok =>
          cases hq : ast[s.treeIndex]? with
          | none =>
            simp [scanStep, h2, h3, Nat.not_le.mpr h3, htok, hq] at h
          | some q =>
            rw [scanStep_eq_dispatch "find" ast corpus s h2 h3 tok htok q hq] at h
            rw [scanStep_eq_dispatch "match" ast corpus s h2 h3 tok htok q hq]
            cases hd : dispatchStep ast corpus s q tok with
            | final r =>
              rw [hd] at h
              obtain ⟨e, rfl⟩ := dispatchStep_final_error ast corpus s q tok r hd
              simp at h
            | cont s' =>
              rw [hd] at h
              have hsp := dispatchStep_cont_spans ast corpus s q tok s' hd
              have h' : scanLoop "find" ast corpus fuel s' = some (.ok (.spans ls)) := h
              show scanLoop "match" ast corpus fuel s' =
                some (.ok (.bool (decide (s.spans.length < ls.length) ||
                  decide (0 < s.spans.length))))
              rw [ih s' ls h', hsp]
    · rw [scanStep_exit "find" ast corpus s h1] at h
      rw [scanStep_exit "match" ast corpus s h1]
      simp [exitResult] at h
      simp [exitResult, h]

/-- C8 counterexample: for the well-formed query
`([lemma='a'] | [lemma='b' & pos='N'])` on a corpus whose third token
lacks the `pos` annotation, match returns true (it stops at the first
emission, over the first token) but findall does not return a list at
all: it keeps scanning and raises KeyError from the And alternative of
the Or on the third token, so the claimed biconditional between the two
modes fails. -/
theorem c8_match_true_findall_raises :
    parse_corpus
        [.orE [.simple3 "lemma" "=" "a", .andA [("lemma", "=", "b"), ("pos", "=", "N")]]]
        [[("lemma", "a"), ("pos", "N")], [("lemma", "c"), ("pos", "N")], [("lemma", "x")]]
        "match" 30 = some (.ok (.bool true)) ∧
    parse_corpus
        [.orE [.simple3 "lemma" "=" "a", .andA [("lemma", "=", "b"), ("pos", "=", "N")]]]
        [[("lemma", "a"), ("pos", "N")], [("lemma", "c"), ("pos", "N")], [("lemma", "x")]]
        "find" 30 = some (.error .keyError) := by
  constructor
  · decide
  · decide

/-- C8 amended: whenever findall completes normally with a span list,
match completes normally with true iff that list is non-empty; the
original biconditional can only fail when findall raises after match has
already returned true on an earlier emission. -/
theorem c8_find_ok_implies_match (ast : List QueryElem) (corpus : List Token)
    (fuel : Nat) (ls : List (Option Nat × Nat))
    (h : parse_corpus ast corpus "find" fuel = some (.ok (.spans ls))) :
    parse_corpus ast corpus "match" fuel = some (.ok (.bool (!ls.isEmpty))) := by
  unfold parse_corpus at h ⊢
  simp only [show ¬ ¬ (("find" : String) = "match" ∨ ("find" : String) = "find") by simp,
    show ¬ ¬ (("match" : String) = "match" ∨ ("match" : String) = "find") by simp,
    if_neg, not_false_eq_true] at h ⊢
  by_cases hc : corpus.isEmpty
  · simp [hc] at h ⊢
    simp [← h]
  · by_cases ha : ast.isEmpty
    · simp [hc, ha] at h ⊢
      simp [← h]
    · simp only [hc, ha, if_false, Bool.false_eq_true] at h ⊢
      have hm := scanLoop_find_match ast corpus fuel initScanState ls (by
        revert h
        split
        · intro h
          simp at h
        · exact id)
      have he : (!ls.isEmpty) = (decide (initScanState.spans.length < ls.length) ||
          decide (0 < initScanState.spans.length)) := by
        cases ls <;> simp [initScanState]
      rw [he]
      split
      · rename_i hcond
        exact absurd (by simp) hcond
      · exact hm

/-- Witness for C8: a one-token corpus where findall finds one span and
match therefore returns true. -/
theorem c8_find_ok_implies_match_witness :
    parse_corpus [.simple "lemma" "=" "a"] [[("lemma", "a")]] "find" 10 =
      some (.ok (.spans [(some 0, 1)])) ∧
    parse_corpus [.simple "lemma" "=" "a"] [[("lemma", "a")]] "match" 10 =
      some (.ok (.bool (!([(some 0, 1)] : List (Option Nat × Nat)).isEmpty))) :=
  ⟨by decide, c8_find_ok_implies_match _ _ _ _ (by decide)⟩

/-! ## Claim C10: termination -/

/-- Loop invariant of the scanner: the anchor never exceeds the text
index, the text index never exceeds the corpus length by more than one,
the tree index never exceeds the AST length, and the completion branch
is only ever entered with the text index inside (or just past) the
corpus. -/
def ScanInv (ast : List QueryElem) (corpus : List Token) (s : ScanState) : Prop :=
  s.anchor ≤ s.textIndex ∧ s.textIndex ≤ corpus.length + 1 ∧ s.treeIndex ≤ ast.length ∧
    (s.treeIndex = ast.length → s.textIndex ≤ corpus.length)

/-- Helper: a successful distance submatch strictly advances the text
index, stays within the corpus, and requires a following AST element. -/
theorem distanceScan_some (ast : List QueryElem) (corpus : List Token) (treeIdx : Nat) :
    ∀ iters text t, distanceScan ast corpus treeIdx iters text = .ok (some t) →
      text < t ∧ t ≤ corpus.length ∧ treeIdx + 1 < ast.length := by
  intro iters
  induction iters with
  | zero => intro text t h; simp [distanceScan] at h
  | succ iters ih =>
    intro text t h
    unfold distanceScan at h
    by_cases hle : corpus.length ≤ text
    · simp [hle] at h
    · rw [if_neg hle] at h
      cases hq : ast[treeIdx + 1]? with
      | none =>
        simp only [hq] at h
        have := ih (text + 1) t h
        exact ⟨by omega, this.2.1, this.2.2⟩
      | some nq =>
        simp only [hq] at h
        cases htok : corpus[text]? with
        | none => simp [htok] at h
        | some tok =>
          simp only [htok] at h
          cases hm : simple_match_any nq tok with
          | error e => simp [hm] at h
          | ok b =>
            simp only [hm] at h
            cases b with
            | true =>
              simp at h
              have hlt : treeIdx + 1 < ast.length := by
                by_contra hc
                rw [List.getElem?_eq_none (by omega)] at hq
                cases hq
              exact ⟨by omega, by omega, hlt⟩
            | false =>
              have := ih (text + 1) t h
              exact ⟨by omega, this.2.1, this.2.2⟩

/-- Helper: from any state satisfying the invariant, one loop iteration
either leaves the loop or moves to a state that still satisfies the
invariant and strictly increases the triple (anchor, text index, tree
index) in lexicographic order. -/
theorem scanStep_progress (mode : String) (ast : List QueryElem) (corpus : List Token)
    (hA : ast ≠ []) (s : ScanState) (hInv : ScanInv ast corpus s) :
    (∃ r, scanStep mode ast corpus s = .final r) ∨
    (∃ s', scanStep mode ast corpus s = .cont s' ∧ ScanInv ast corpus s' ∧
      (s.anchor < s'.anchor ∨
        (s'.anchor = s.anchor ∧ s.textIndex < s'.textIndex) ∨
        (s'.anchor = s.anchor ∧ s'.textIndex = s.textIndex ∧ s.treeIndex < s'.treeIndex))) := by
  obtain ⟨i1, i2, i3, i4⟩ := hInv
  have hL : 1 ≤ ast.length := List.length_pos.mpr hA
  by_cases h1 : (s.textIndex < corpus.length ∨ s.treeIndex = ast.length)
  case neg => exact Or.inl ⟨_, scanStep_exit mode ast corpus s h1⟩
  by_cases h2 : s.treeIndex = ast.length
  · by_cases hm : mode = "match"
    · exact Or.inl ⟨_, by rw [hm]; exact scanStep_match_emit ast corpus s h2⟩
    · right
      have h5 := i4 h2
      refine ⟨{ s with spans := s.spans ++ [(s.firstMatch, s.textIndex)], textIndex := s.textIndex + 1, treeIndex := 0, firstMatch := none, anchor := s.anchor + 1 }, by simp [scanStep, h2, hm], ?_, ?_⟩
      · unfold ScanInv
        dsimp only
        omega
      · dsimp only
        omega
  · have h3 : s.textIndex < corpus.length := h1.resolve_right h2
    have h4 : s.treeIndex < ast.length := lt_of_le_of_ne i3 h2
    obtain ⟨tok, htok⟩ : ∃ tok, corpus[s.textIndex]? = some tok :=
      ⟨corpus[s.textIndex], List.getElem?_eq_getElem h3⟩
    obtain ⟨q, hq⟩ : ∃ q, ast[s.treeIndex]? = some q :=
      ⟨ast[s.treeIndex], List.getElem?_eq_getElem h4⟩
    rw [scanStep_eq_dispatch mode ast corpus s h2 h3 tok htok q hq]
    cases q with
    | simple a o p =>
      by_cases ha : a ∈ ANNOTATION_TYPES
      · cases hsm : simple_match a o p tok with
        | ok b =>
          cases b with
          | true =>
            right
            refine ⟨advanceState s, by simp [dispatchStep, ha, hsm], ?_, ?_⟩
            · unfold ScanInv advanceState
              dsimp only
              omega
            · unfold advanceState
              dsimp only
              omega
          | false =>
            right
            refine ⟨resetState s, by simp [dispatchStep, ha, hsm], ?_, ?_⟩
            · unfold ScanInv resetState
              dsimp only
              omega
            · unfold resetState
              dsimp only
              omega
        | error e =>
          cases e with
          | keyError =>
            right
            refine ⟨resetState s, by simp [dispatchStep, ha, hsm], ?_, ?_⟩
            · unfold ScanInv resetState
              dsimp only
              omega
            · unfold resetState
              dsimp only
              omega
          | valueError => exact Or.inl ⟨.error .valueError, by simp [dispatchStep, ha, hsm]⟩
          | indexError => exact Or.inl ⟨.error .indexError, by simp [dispatchStep, ha, hsm]⟩
      · right
        refine ⟨{ s with treeIndex := s.treeIndex + 1 }, by simp [dispatchStep, ha], ?_, ?_⟩
        · unfold ScanInv
          dsimp only
          omega
        · dsimp only
          omega
    | orE alts =>
      cases ham : alternative_match alts tok with
      | ok b =>
        cases b with
        | true =>
          right
          refine ⟨advanceState s, by simp [dispatchStep, ham], ?_, ?_⟩
          · unfold ScanInv advanceState
            dsimp only
            omega
          · unfold advanceState
            dsimp only
            omega
        | false =>
          right
          refine ⟨resetState s, by simp [dispatchStep, ham], ?_, ?_⟩
          · unfold ScanInv resetState
            dsimp only
            omega
          · unfold resetState
            dsimp only
            omega
      | error e => exact Or.inl ⟨.error e, by simp [dispatchStep, ham]⟩
    | distance lo hi =>
      cases hds : distanceScan ast corpus s.treeIndex (hi - lo) s.textIndex with
      | error e => exact Or.inl ⟨.error e, by simp [dispatchStep, hds]⟩
      | ok o =>
        cases o with
        | none =>
          right
          refine ⟨resetState s, by simp [dispatchStep, hds], ?_, ?_⟩
          · unfold ScanInv resetState
            dsimp only
            omega
          · unfold resetState
            dsimp only
            omega
        | some t =>
          have hfacts := distanceScan_some ast corpus s.treeIndex (hi - lo) s.textIndex t hds
          right
          refine ⟨{ s with treeIndex := s.treeIndex + 2, textIndex := t }, by simp [dispatchStep, hds], ?_, ?_⟩
          · unfold ScanInv
            dsimp only
            omega
          · dsimp only
            omega
    | andE items =>
      cases hmap : items.mapM (fun it => simple_match it.1 it.2.1 it.2.2 tok) with
      | ok bs =>
        by_cases hall : bs.all (fun b => b)
        · right
          refine ⟨advanceState s, by simp only [dispatchStep]; rw [hmap]; simp [hall], ?_, ?_⟩
          · unfold ScanInv advanceState
            dsimp only
            omega
          · unfold advanceState
            dsimp only
            omega
        · right
          refine ⟨resetState s, by simp only [dispatchStep]; rw [hmap]; simp [hall], ?_, ?_⟩
          · unfold ScanInv resetState
            dsimp only
            omega
          · unfold resetState
            dsimp only
            omega
      | error e =>
        cases e with
        | keyError =>
          right
          refine ⟨resetState s, by simp only [dispatchStep]; rw [hmap], ?_, ?_⟩
          · unfold ScanInv resetState
            dsimp only
            omega
          · unfold resetState
            dsimp only
            omega
        | valueError =>
          right
          refine ⟨resetState s, by simp only [dispatchStep]; rw [hmap], ?_, ?_⟩
          · unfold ScanInv resetState
            dsimp only
            omega
          · unfold resetState
            dsimp only
            omega
        | indexError => exact Or.inl ⟨.error .indexError, by simp only [dispatchStep]; rw [hmap]⟩
    | opt inner =>
      cases ham : alternative_match [inner] tok with
      | ok b =>
        cases b with
        | true =>
          right
          refine ⟨advanceState s, by simp [dispatchStep, ham], ?_, ?_⟩
          · unfold ScanInv advanceState
            dsimp only
            omega
          · unfold advanceState
            dsimp only
            omega
        | false =>
          right
          refine ⟨{ s with treeIndex := s.treeIndex + 1 }, by simp [dispatchStep, ham], ?_, ?_⟩
          · unfold ScanInv
            dsimp only
            omega
          · dsimp only
            omega
      | error e =>
        cases e with
        | keyError =>
          right
          refine ⟨{ s with treeIndex := s.treeIndex + 1 }, by simp [dispatchStep, ham], ?_, ?_⟩
          · unfold ScanInv
            dsimp only
            omega
          · dsimp only
            omega
        | valueError =>
          right
          refine ⟨{ s with treeIndex := s.treeIndex + 1 }, by simp [dispatchStep, ham], ?_, ?_⟩
          · unfold ScanInv
            dsimp only
            omega
          · dsimp only
            omega
        | indexError => exact Or.inl ⟨.error .indexError, by simp [dispatchStep, ham]⟩

/-- Helper: from any invariant state, some finite amount of fuel makes
the scanning loop return, by nested strong descent on the remaining
anchor, text and tree budgets. -/
theorem scanLoop_total (mode : String) (ast : List QueryElem) (corpus : List Token)
    (hA : ast ≠ []) :
    ∀ a b c s, ScanInv ast corpus s →
      corpus.length + 2 - s.anchor ≤ a →
      corpus.length + 2 - s.textIndex ≤ b →
      ast.length + 1 - s.treeIndex ≤ c →
      ∃ fuel r, scanLoop mode ast corpus fuel s = some r := by
  intro a
  induction a with
  | zero =>
    intro b c s hInv ha hb hc
    exfalso
    obtain ⟨i1, i2, _, _⟩ := hInv
    omega
  | succ a iha =>
    intro b
    induction b with
    | zero =>
      intro c s hInv ha hb hc
      exfalso
      obtain ⟨i1, i2, _, _⟩ := hInv
      omega
    | succ b ihb =>
      intro c
      induction c with
      | zero =>
        intro s hInv ha hb hc
        exfalso
        obtain ⟨_, _, i3, _⟩ := hInv
        omega
      | succ c ihc =>
        intro s hInv ha hb hc
        rcases scanStep_progress mode ast corpus hA s hInv with ⟨r, hr⟩ | ⟨s', hs', hInv', hlt⟩
        · exact ⟨1, r, by simp [scanLoop, hr]⟩
        · have hstep : ∀ fuel r, scanLoop mode ast corpus fuel s' = some r →
              scanLoop mode ast corpus (fuel + 1) s = some r := by
            intro fuel r h
            unfold scanLoop
            rw [hs']
            exact h
          rcases hlt with hlt1 | ⟨hlt2a, hlt2b⟩ | ⟨hlt3a, hlt3b, hlt3c⟩
          · obtain ⟨fuel, r, h⟩ := iha (corpus.length + 2 - s'.textIndex)
              (ast.length + 1 - s'.treeIndex) s' hInv' (by omega) (le_refl _) (le_refl _)
            exact ⟨fuel + 1, r, hstep fuel r h⟩
          · obtain ⟨fuel, r, h⟩ := ihb (ast.length + 1 - s'.treeIndex) s' hInv'
              (by omega) (by omega) (le_refl _)
            exact ⟨fuel + 1, r, hstep fuel r h⟩
          · obtain ⟨fuel, r, h⟩ := ihc s' hInv' (by omega) (by omega) (by omega)
            exact ⟨fuel + 1, r, hstep fuel r h⟩

/-- C10: `parse_corpus` terminates on every input — for every mode
string (invalid modes included, which raise ValueError at once), every
AST list (empty lists and elements with unrecognized operator tags
included, the latter being `simple` elements whose annotation is outside
`ANNOTATION_TYPES`) and every corpus, some finite fuel suffices for the
scanning loop to return, i.e. the loop runs only finitely many
iterations. -/
theorem c10_parse_corpus_terminates (mode : String) (ast : List QueryElem)
    (corpus : List Token) :
    ∃ fuel r, parse_corpus ast corpus mode fuel = some r := by
  by_cases hm : (mode = "match" ∨ mode = "find")
  · have hnn := not_not_intro hm
    by_cases hc : corpus.isEmpty
    · exact ⟨0, if mode = "match" then .ok (.bool false) else .ok (.spans []),
        by simp [parse_corpus, hnn, hc]⟩
    · by_cases ha : ast.isEmpty
      · exact ⟨0, if mode = "match" then .ok (.bool false) else .ok (.spans []),
          by simp [parse_corpus, hnn, hc, ha]⟩
      · have hA : ast ≠ [] := by
          intro h
          rw [h] at ha
          exact ha rfl
        obtain ⟨fuel, r, h⟩ := scanLoop_total mode ast corpus hA (corpus.length + 2)
          (corpus.length + 2) (ast.length + 1) initScanState
          (by unfold ScanInv initScanState; dsimp only; omega)
          (by unfold initScanState; dsimp only; omega)
          (by unfold initScanState; dsimp only; omega)
          (by unfold initScanState; dsimp only; omega)
        exact ⟨fuel, r, by simp [parse_corpus, hnn, hc, ha, h]⟩
  · exact ⟨0, .error .valueError, by simp [parse_corpus, hm]⟩
